import Mathlib

/-!
Verification development for the `go-yaml-validator` repository.

The program is a command-line validator for a single YAML "Pod" manifest.
We give a shallow embedding of its validation engine:

* `YVal` is the generic YAML value model (the untyped view produced by
  `yaml.Unmarshal` into `map[string]interface{}`).
* The `Pod`/`Metadata`/`PodSpec`/`Container`/... structures mirror the Go
  structs in `src/yamlvalid.go`.
* `isSnakeCase`, `isValidMemoryFormat`, `isValidImage`, `atoiOk` translate
  the helper functions (`regexp.MatchString` with the anchored patterns,
  `strings.HasPrefix`/`strings.Contains`, `strconv.Atoi`).
* `validatePodDiags` is the diagnostic output of `validatePod` from
  `src/yamlvalid.go` (the strict variant, which aborts with an error when
  the typed parse fails); each printed line is one `String` in the list,
  in exactly the order and with exactly the text the Go code prints.
* `validatePodLenient` is the diagnostic output of the `validatePod`
  variant in `src/unnamed/part_001` (raw-map pass first, typed pass only
  when the typed parse succeeded, never aborts).

Go map iteration order is unspecified; the `requests`/`limits` maps and the
raw document mappings are modelled as association lists in document order,
and statements about those diagnostics are membership or emptiness
statements, which do not depend on the iteration order.
-/

namespace YamlValid

/-- Generic YAML value: the untyped view of a parsed document
(`map[string]interface{}` / `[]interface{}` / scalars in Go). -/
inductive YVal where
  | str (s : String)
  | int (n : Int)
  | bool (b : Bool)
  | null
  | seq (xs : List YVal)
  | map (entries : List (String × YVal))

/-- Lookup in a YAML mapping (Go map indexing; first binding wins). -/
def ylookup : List (String × YVal) → String → Option YVal
  | [], _ => none
  | (k, v) :: rest, key => if k = key then some v else ylookup rest key

/-- Go struct `Metadata` (field `Namespace` renamed `nspace`: Lean keyword). -/
structure Metadata where
  name : String
  nspace : String
  labels : Option (List (String × String))
deriving DecidableEq

/-- Go struct `PodOS`. -/
structure PodOS where
  name : String
deriving DecidableEq

/-- Go struct `ContainerPort`. -/
structure ContainerPort where
  containerPort : Int
  protocol : String
deriving DecidableEq

/-- Go struct `HTTPGetAction`. -/
structure HTTPGetAction where
  path : String
  port : Int
deriving DecidableEq

/-- Go struct `Probe`. -/
structure Probe where
  httpGet : HTTPGetAction
deriving DecidableEq

/-- Go struct `ResourceRequirements`; `none` is a nil Go map. -/
structure ResourceRequirements where
  requests : Option (List (String × String))
  limits : Option (List (String × String))
deriving DecidableEq

/-- Go struct `Container`. -/
structure Container where
  name : String
  image : String
  ports : List ContainerPort
  readinessProbe : Option Probe
  livenessProbe : Option Probe
  resources : ResourceRequirements
deriving DecidableEq

/-- Go struct `PodSpec`. -/
structure PodSpec where
  os : Option PodOS
  containers : List Container
deriving DecidableEq

/-- Go struct `Pod`. -/
structure Pod where
  apiVersion : String
  kind : String
  metadata : Metadata
  spec : PodSpec
deriving DecidableEq

/-- Lower-case ASCII letter, the `[a-z]` character class. -/
def isLowerChar (c : Char) : Bool :=
  ('a' ≤ c) && (c ≤ 'z')

/-- ASCII digit, the `[0-9]` character class. -/
def isDigitChar (c : Char) : Bool :=
  ('0' ≤ c) && (c ≤ '9')

/-- Matcher for the anchored regex `[a-z]+(_[a-z]+)*`: `inGroup` records
whether at least one letter of the current group has been consumed. -/
def snakeAux : List Char → Bool → Bool
  | [], inGroup => inGroup
  | c :: rest, inGroup =>
      if c = '_' then inGroup && snakeAux rest false
      else isLowerChar c && snakeAux rest true

/-- `isSnakeCase` from the source: whole-string match against
the anchored regex `[a-z]+(_[a-z]+)*`, i.e. nonempty lower-case groups
joined by single underscores. -/
def isSnakeCase (s : String) : Bool :=
  snakeAux s.data false

/-- `isValidMemoryFormat` from the source: whole-string match against the
anchored regex `[0-9]+(Ki|Mi|Gi)`. -/
def isValidMemoryFormat (mem : String) : Bool :=
  decide (3 ≤ mem.data.length) &&
    (mem.data.take (mem.data.length - 2)).all isDigitChar &&
    ((mem.data.drop (mem.data.length - 2) = ['K', 'i']) ||
     (mem.data.drop (mem.data.length - 2) = ['M', 'i']) ||
     (mem.data.drop (mem.data.length - 2) = ['G', 'i']))

/-- `isValidImage` from the source:
`strings.HasPrefix(image, "registry.bigbrother.io/") && strings.Contains(image, ":")`. -/
def isValidImage (image : String) : Bool :=
  (("registry.bigbrother.io/").data.isPrefixOf image.data) && image.data.contains (':')

/-- Numeric value of a digit string (most significant digit first). -/
def digitsVal (cs : List Char) : Nat :=
  cs.foldl (fun a c => a * 10 + (c.toNat - 48)) 0

/-- Whether `strconv.Atoi` succeeds: an optional sign followed by a nonempty
run of digits making up the whole string, with the value within the 64-bit
`int` range. -/
def atoiOk (s : String) : Bool :=
  match s.data with
  | [] => false
  | '+' :: rest =>
      (!rest.isEmpty) && rest.all isDigitChar &&
        decide (digitsVal rest ≤ 9223372036854775807)
  | '-' :: rest =>
      (!rest.isEmpty) && rest.all isDigitChar &&
        decide (digitsVal rest ≤ 9223372036854775808)
  | cs =>
      cs.all isDigitChar && decide (digitsVal cs ≤ 9223372036854775807)

/-- The bare-string `spec.os` value of the raw document, when the raw view is
a mapping whose `spec` entry is a mapping whose `os` entry is a string: the
chain of type assertions at the top of `validatePod`. -/
def specOsBareString (doc : YVal) : Option String :=
  match doc with
  | .map m =>
      match ylookup m ("spec") with
      | some (.map sm) =>
          match ylookup sm ("os") with
          | some (.str s) => some s
          | _ => none
      | _ => none
  | _ => none

/-- The raw-map `os` check of `validatePod` (src/yamlvalid.go lines 100-111):
fires when the bare-string `os` value is neither "linux" nor "windows". -/
def osRawDiags (src : String) (doc : YVal) : List String :=
  match specOsBareString doc with
  | some s =>
      if s ≠ ("linux") ∧ s ≠ ("windows") then
        [src ++ (":10 os has unsupported value \x27") ++ s ++ ("\x27")]
      else []
  | none => []

/-- The two top-level `apiVersion` checks (lines 114-119). -/
def apiVersionDiags (src v : String) : List String :=
  (if v = "" then [src ++ (": apiVersion is required")] else []) ++
  (if v ≠ "" ∧ v ≠ ("v1") then
    [src ++ (": apiVersion has unsupported value \x27") ++ v ++ ("\x27")]
   else [])

/-- The two top-level `kind` checks (lines 121-126). -/
def kindDiags (src v : String) : List String :=
  (if v = "" then [src ++ (": kind is required")] else []) ++
  (if v ≠ "" ∧ v ≠ ("Pod") then
    [src ++ (": kind has unsupported value \x27") ++ v ++ ("\x27")]
   else [])

/-- The `metadata.name` check (lines 129-131); note the hardcoded `:4` tag
in the printed line. -/
def metaNameDiags (src n : String) : List String :=
  if n = "" then [src ++ (":4 name is required")] else []

/-- The `spec.containers` non-empty check (lines 134-136). -/
def containersRequiredDiags (src : String) (cs : List Container) : List String :=
  if cs.length = 0 then [src ++ (": spec.containers is required")] else []

/-- The per-container path `fmt.Sprintf("%s: spec.containers[%d]", src, i)`. -/
def ctrPath (src : String) (i : Nat) : String :=
  src ++ (": spec.containers[") ++ toString i ++ ("]")

/-- Container-name format and duplicate checks, reached when the name is
nonempty (lines 147-152); shared by both source variants. -/
def nameFmtDupDiags (src : String) (seen : List String) (i : Nat) (c : Container) : List String :=
  (if isSnakeCase c.name then []
   else [ctrPath src i ++ (".name has invalid format \x27") ++ c.name ++ ("\x27")]) ++
  (if c.name ∈ seen then
    [ctrPath src i ++ (".name duplicate container name \x27") ++ c.name ++ ("\x27")]
   else [])

/-- Container-name checks of src/yamlvalid.go (lines 144-154); an empty name
prints the hardcoded `:12`-tagged line and skips the other name checks. -/
def nameDiags (src : String) (seen : List String) (i : Nat) (c : Container) : List String :=
  if c.name = "" then [src ++ (":12 name is required")]
  else nameFmtDupDiags src seen i c

/-- `containerNames[container.Name] = true`: the seen-name set is extended
only in the nonempty-name branch. -/
def updateSeen (seen : List String) (c : Container) : List String :=
  if c.name = "" then seen else c.name :: seen

/-- Container image checks (lines 157-161). -/
def imageDiags (src : String) (i : Nat) (c : Container) : List String :=
  if c.image = "" then [ctrPath src i ++ (".image is required")]
  else if isValidImage c.image then []
  else [ctrPath src i ++ (".image has invalid format \x27") ++ c.image ++ ("\x27")]

/-- The loop over `container.Resources.Requests` (lines 164-170): only the
`memory` key is checked. -/
def requestsDiags (src : String) (i : Nat) : List (String × String) → List String
  | [] => []
  | (k, v) :: rest =>
      (if k = ("memory") ∧ isValidMemoryFormat v = false then
        [ctrPath src i ++ (".resources.requests.memory has invalid format \x27") ++ v ++ ("\x27")]
       else []) ++
      requestsDiags src i rest

/-- The loop over `container.Resources.Limits` (lines 171-183): the `memory`
key is format-checked and the `cpu` key must satisfy `strconv.Atoi`; note the
hardcoded `:30` tag in the printed cpu line. -/
def limitsDiags (src : String) (i : Nat) : List (String × String) → List String
  | [] => []
  | (k, v) :: rest =>
      (if k = ("memory") ∧ isValidMemoryFormat v = false then
        [ctrPath src i ++ (".resources.limits.memory has invalid format \x27") ++ v ++ ("\x27")]
       else []) ++
      (if k = ("cpu") ∧ atoiOk v = false then [src ++ (":30 cpu must be int")] else []) ++
      limitsDiags src i rest

/-- Resource checks of one container: a nil map (`none`) is not iterated. -/
def resourcesDiags (src : String) (i : Nat) (r : ResourceRequirements) : List String :=
  (match r.requests with
   | none => []
   | some es => requestsDiags src i es) ++
  (match r.limits with
   | none => []
   | some es => limitsDiags src i es)

/-- The per-port path `fmt.Sprintf("%s.ports[%d]", prefix, j)`. -/
def portPath (src : String) (i j : Nat) : String :=
  ctrPath src i ++ (".ports[") ++ toString j ++ ("]")

/-- Checks of one port (lines 189-195): range `containerPort <= 0 ||
containerPort >= 65536` and protocol membership. -/
def onePortDiags (src : String) (i j : Nat) (p : ContainerPort) : List String :=
  (if p.containerPort ≤ 0 ∨ 65536 ≤ p.containerPort then
    [portPath src i j ++ (".containerPort value out of range")]
   else []) ++
  (if p.protocol ≠ "" ∧ p.protocol ≠ ("TCP") ∧ p.protocol ≠ ("UDP") then
    [portPath src i j ++ (".protocol has unsupported value \x27") ++ p.protocol ++ ("\x27")]
   else [])

/-- The loop over `container.Ports` (lines 186-196). -/
def portsDiags (src : String) (i j : Nat) : List ContainerPort → List String
  | [] => []
  | p :: rest => onePortDiags src i j p ++ portsDiags src i (j + 1) rest

/-- Checks of one probe (lines 199-218): `httpGet.path` required and
`httpGet.port` range. -/
def probeDiags (base : String) (pr : Probe) : List String :=
  (if pr.httpGet.path = "" then [base ++ (".httpGet.path is required")] else []) ++
  (if pr.httpGet.port ≤ 0 ∨ 65536 ≤ pr.httpGet.port then
    [base ++ (".httpGet.port value out of range")]
   else [])

/-- `readinessProbe` checks: skipped when the pointer is nil. -/
def readinessDiags (src : String) (i : Nat) (c : Container) : List String :=
  match c.readinessProbe with
  | none => []
  | some pr => probeDiags (ctrPath src i ++ (".readinessProbe")) pr

/-- `livenessProbe` checks: skipped when the pointer is nil. -/
def livenessDiags (src : String) (i : Nat) (c : Container) : List String :=
  match c.livenessProbe with
  | none => []
  | some pr => probeDiags (ctrPath src i ++ (".livenessProbe")) pr

/-- All checks of one container that do not involve the seen-name set. -/
def containerRest (src : String) (i : Nat) (c : Container) : List String :=
  imageDiags src i c ++ resourcesDiags src i c.resources ++
  portsDiags src i 0 c.ports ++ readinessDiags src i c ++ livenessDiags src i c

/-- All checks of one container, in source order. -/
def oneContainerDiags (src : String) (seen : List String) (i : Nat) (c : Container) : List String :=
  nameDiags src seen i c ++ containerRest src i c

/-- The loop over `pod.Spec.Containers` (lines 139-219), threading the
seen-name set. -/
def containersDiags (src : String) (seen : List String) (i : Nat) : List Container → List String
  | [] => []
  | c :: rest =>
      oneContainerDiags src seen i c ++ containersDiags src (updateSeen seen c) (i + 1) rest

/-- All diagnostic lines printed by `validatePod` of src/yamlvalid.go for a
successfully typed-parsed document, in print order. -/
def validatePodDiags (src : String) (pod : Pod) (doc : YVal) : List String :=
  osRawDiags src doc ++
  apiVersionDiags src pod.apiVersion ++
  kindDiags src pod.kind ++
  metaNameDiags src pod.metadata.name ++
  containersRequiredDiags src pod.spec.containers ++
  containersDiags src [] 0 pod.spec.containers

/-- Modelled from the spec: the typed pass of the Dual Parser (§4.1) binds a
scalar to a Go `string` field using the scalar's raw text; a non-scalar
flags a shape error and leaves the zero value. The `yaml.v3` library that
implements this binding is not part of src/. -/
def decodeStr : YVal → String × Bool
  | .str s => (s, false)
  | .int n => (toString n, false)
  | .bool b => (toString b, false)
  | .null => ("", false)
  | _ => ("", true)

/-- Modelled from the spec: binding a scalar to a Go `int` field; a
non-integer scalar or non-scalar flags a shape error (§4.1). -/
def decodeInt : YVal → Int × Bool
  | .int n => (n, false)
  | .null => (0, false)
  | _ => (0, true)

/-- Modelled from the spec: a struct field that is absent decodes to the zero
value without error (§4.1 "tolerating missing/extra fields"). -/
def decodeStrField (es : List (String × YVal)) (k : String) : String × Bool :=
  match ylookup es k with
  | none => ("", false)
  | some v => decodeStr v

/-- Modelled from the spec: absent integer field decodes to zero. -/
def decodeIntField (es : List (String × YVal)) (k : String) : Int × Bool :=
  match ylookup es k with
  | none => (0, false)
  | some v => decodeInt v

/-- Modelled from the spec: binding a mapping to `map[string]string`; entries
whose value has the wrong shape are dropped and flagged. -/
def decodeStrMap : List (String × YVal) → List (String × String) × Bool
  | [] => ([], false)
  | (k, v) :: rest =>
      let sv := decodeStr v
      let tail := decodeStrMap rest
      if sv.2 then (tail.1, true) else ((k, sv.1) :: tail.1, tail.2)

/-- Modelled from the spec: an absent or null `map[string]string` field stays
a nil map (`none`); a non-mapping value flags a shape error. -/
def decodeOptStrMap : Option YVal → Option (List (String × String)) × Bool
  | none => (none, false)
  | some (.null) => (none, false)
  | some (.map es) =>
      let r := decodeStrMap es
      (some r.1, r.2)
  | some _ => (none, true)

/-- Modelled from the spec: binding one `ContainerPort` struct. -/
def decodePortStruct (es : List (String × YVal)) : ContainerPort × Bool :=
  let p := decodeIntField es ("containerPort")
  let pr := decodeStrField es ("protocol")
  ({ containerPort := p.1, protocol := pr.1 }, p.2 || pr.2)

/-- Modelled from the spec: binding a sequence of ports; an element of a
wrong shape is dropped and flagged, a null element becomes the zero struct. -/
def decodePorts : List YVal → List ContainerPort × Bool
  | [] => ([], false)
  | v :: rest =>
      let tail := decodePorts rest
      match v with
      | .map es =>
          let p := decodePortStruct es
          (p.1 :: tail.1, p.2 || tail.2)
      | .null => (({ containerPort := 0, protocol := "" } : ContainerPort) :: tail.1, tail.2)
      | _ => (tail.1, true)

/-- Modelled from the spec: binding the `httpGet` struct. -/
def decodeHTTPGet : YVal → HTTPGetAction × Bool
  | .map es =>
      let pa := decodeStrField es ("path")
      let po := decodeIntField es ("port")
      ({ path := pa.1, port := po.1 }, pa.2 || po.2)
  | .null => ({ path := "", port := 0 }, false)
  | _ => ({ path := "", port := 0 }, true)

/-- Modelled from the spec: binding an optional `*Probe` field; absent or
null stays nil, a mapping decodes, any other shape flags an error. -/
def decodeProbeOpt : Option YVal → Option Probe × Bool
  | none => (none, false)
  | some (.null) => (none, false)
  | some (.map es) =>
      (match ylookup es ("httpGet") with
       | none => (some { httpGet := { path := "", port := 0 } }, false)
       | some v =>
           let g := decodeHTTPGet v
           (some { httpGet := g.1 }, g.2))
  | some _ => (none, true)

/-- Modelled from the spec: binding the optional `*PodOS` field; a bare
string (the ambiguous shape of §4.1) flags a shape error and leaves nil. -/
def decodeOSOpt : Option YVal → Option PodOS × Bool
  | none => (none, false)
  | some (.null) => (none, false)
  | some (.map es) =>
      let n := decodeStrField es ("name")
      (some { name := n.1 }, n.2)
  | some _ => (none, true)

/-- Modelled from the spec: binding the `resources` field. -/
def decodeResources : Option YVal → ResourceRequirements × Bool
  | none => ({ requests := none, limits := none }, false)
  | some (.null) => ({ requests := none, limits := none }, false)
  | some (.map es) =>
      let rq := decodeOptStrMap (ylookup es ("requests"))
      let lm := decodeOptStrMap (ylookup es ("limits"))
      ({ requests := rq.1, limits := lm.1 }, rq.2 || lm.2)
  | some _ => ({ requests := none, limits := none }, true)

/-- Modelled from the spec: binding one `Container` struct. -/
def decodeContainerStruct (es : List (String × YVal)) : Container × Bool :=
  let nm := decodeStrField es ("name")
  let im := decodeStrField es ("image")
  let ps : List ContainerPort × Bool :=
    match ylookup es ("ports") with
    | none => ([], false)
    | some (.null) => ([], false)
    | some (.seq xs) => decodePorts xs
    | some _ => ([], true)
  let rp := decodeProbeOpt (ylookup es ("readinessProbe"))
  let lp := decodeProbeOpt (ylookup es ("livenessProbe"))
  let rs := decodeResources (ylookup es ("resources"))
  ({ name := nm.1, image := im.1, ports := ps.1, readinessProbe := rp.1,
     livenessProbe := lp.1, resources := rs.1 },
   nm.2 || im.2 || ps.2 || rp.2 || lp.2 || rs.2)

/-- The zero `Container` value. -/
def zeroContainer : Container :=
  { name := "", image := "", ports := [], readinessProbe := none,
    livenessProbe := none, resources := { requests := none, limits := none } }

/-- Modelled from the spec: binding the containers sequence; an element of a
wrong shape is dropped and flagged, a null element is the zero struct. -/
def decodeContainers : List YVal → List Container × Bool
  | [] => ([], false)
  | v :: rest =>
      let tail := decodeContainers rest
      match v with
      | .map es =>
          let c := decodeContainerStruct es
          (c.1 :: tail.1, c.2 || tail.2)
      | .null => (zeroContainer :: tail.1, tail.2)
      | _ => (tail.1, true)

/-- Modelled from the spec: binding the `metadata` field. -/
def decodeMetadata : Option YVal → Metadata × Bool
  | none => ({ name := "", nspace := "", labels := none }, false)
  | some (.null) => ({ name := "", nspace := "", labels := none }, false)
  | some (.map es) =>
      let nm := decodeStrField es ("name")
      let ns := decodeStrField es ("namespace")
      let lb := decodeOptStrMap (ylookup es ("labels"))
      ({ name := nm.1, nspace := ns.1, labels := lb.1 }, nm.2 || ns.2 || lb.2)
  | some _ => ({ name := "", nspace := "", labels := none }, true)

/-- Modelled from the spec: binding the `spec` field. -/
def decodeSpec : Option YVal → PodSpec × Bool
  | none => ({ os := none, containers := [] }, false)
  | some (.null) => ({ os := none, containers := [] }, false)
  | some (.map es) =>
      let o := decodeOSOpt (ylookup es ("os"))
      let cs : List Container × Bool :=
        match ylookup es ("containers") with
        | none => ([], false)
        | some (.null) => ([], false)
        | some (.seq xs) => decodeContainers xs
        | some _ => ([], true)
      ({ os := o.1, containers := cs.1 }, o.2 || cs.2)
  | some _ => ({ os := none, containers := [] }, true)

/-- Modelled from the spec: the whole typed pass of the Dual Parser (§4.1):
bind the document to the `Pod` schema, tolerating missing and extra fields,
returning the populated structure together with a flag saying whether any
field had an unparseable shape (`yaml.Unmarshal` returned an error). -/
def decodePod (doc : YVal) : Pod × Bool :=
  match doc with
  | .map es =>
      let av := decodeStrField es ("apiVersion")
      let kd := decodeStrField es ("kind")
      let md := decodeMetadata (ylookup es ("metadata"))
      let sp := decodeSpec (ylookup es ("spec"))
      ({ apiVersion := av.1, kind := kd.1, metadata := md.1, spec := sp.1 },
       av.2 || kd.2 || md.2 || sp.2)
  | .null =>
      ({ apiVersion := "", kind := "", metadata := { name := "", nspace := "", labels := none },
         spec := { os := none, containers := [] } }, false)
  | _ =>
      ({ apiVersion := "", kind := "", metadata := { name := "", nspace := "", labels := none },
         spec := { os := none, containers := [] } }, true)

/-- `validatePod` of src/yamlvalid.go, after the file read: any error from
the typed parse aborts the whole validation with the `invalid YAML format`
error (lines 92-97) before a single diagnostic is printed; otherwise every
check runs and the printed lines are returned. -/
def validatePod (src : String) (doc : YVal) : Except String (List String) :=
  let r := decodePod doc
  if r.2 then Except.error ("invalid YAML format")
  else Except.ok (validatePodDiags src r.1 doc)

/-- Process exit status of `runValidator`: nonzero exactly when
`validatePod` returned an error. -/
def runExit : Except String (List String) → Nat
  | Except.error _ => 1
  | Except.ok _ => 0

/-! The `validatePod` variant in src/unnamed/part_001: it first runs a set
of raw-map checks (metadata.name, os, and first-container-only checks of
containerPort, probe ports and cpu), then, only when the typed parse
succeeded, a reduced typed pass. It never aborts after a successful file
read, so the run always exits zero; `src` stands for `filepath.Base` of the
argument. -/

/-- Raw-map `metadata.name` check of part_001 (lines 104-112): fires when
`metadata` is a mapping whose `name` entry is absent or an empty string. -/
def metaNameRawDiags (src : String) (doc : YVal) : List String :=
  match doc with
  | .map m =>
      match ylookup m ("metadata") with
      | some (.map mm) =>
          match ylookup mm ("name") with
          | none => [src ++ (":4 name is required")]
          | some (.str s) => if s = "" then [src ++ (":4 name is required")] else []
          | some _ => []
      | _ => []
  | _ => []

/-- The raw view of `spec.containers[0]` when it is a mapping: the repeated
chain of type assertions in part_001 (lines 126-131 and similar). -/
def firstContainerRaw (doc : YVal) : Option (List (String × YVal)) :=
  match doc with
  | .map m =>
      match ylookup m ("spec") with
      | some (.map sm) =>
          match ylookup sm ("containers") with
          | some (.seq (c :: _)) =>
              match c with
              | .map cm => some cm
              | _ => none
          | _ => none
      | _ => none
  | _ => none

/-- Raw-map check of `spec.containers[0].ports[0].containerPort` only
(part_001 lines 126-142); note the hardcoded `:15` tag. -/
def firstPortRawDiags (src : String) (doc : YVal) : List String :=
  match firstContainerRaw doc with
  | some cm =>
      match ylookup cm ("ports") with
      | some (.seq (p :: _)) =>
          (match p with
           | .map pm =>
               match ylookup pm ("containerPort") with
               | some (.int n) =>
                   if n ≤ 0 ∨ 65536 ≤ n then
                     [src ++ (":15 containerPort value out of range")]
                   else []
               | _ => []
           | _ => [])
      | _ => []
  | none => []

/-- Raw-map probe-port check of part_001 (lines 144-180), applied to
`spec.containers[0]` only, for `key` either readinessProbe or livenessProbe;
both print the same `:24`-tagged line. -/
def probeRawDiags (src : String) (doc : YVal) (key : String) : List String :=
  match firstContainerRaw doc with
  | some cm =>
      match ylookup cm key with
      | some (.map prm) =>
          match ylookup prm ("httpGet") with
          | some (.map hm) =>
              match ylookup hm ("port") with
              | some (.int n) =>
                  if n ≤ 0 ∨ 65536 ≤ n then [src ++ (":24 port value out of range")] else []
              | _ => []
          | _ => []
      | _ => []
  | none => []

/-- The per-value cpu check of part_001 (lines 191-200 and 206-215): a
string must satisfy `strconv.Atoi`, an int passes, anything else fails;
note the hardcoded `:27` tag. -/
def cpuValDiag (src : String) (v : YVal) : List String :=
  match v with
  | .str s => if atoiOk s = false then [src ++ (":27 cpu must be int")] else []
  | .int _ => []
  | _ => [src ++ (":27 cpu must be int")]

/-- Raw-map cpu checks of part_001 (lines 182-221): for
`spec.containers[0].resources` only, `limits.cpu` first then
`requests.cpu`. -/
def cpuRawDiags (src : String) (doc : YVal) : List String :=
  match firstContainerRaw doc with
  | some cm =>
      match ylookup cm ("resources") with
      | some (.map rm) =>
          (match ylookup rm ("limits") with
           | some (.map lm) =>
               (match ylookup lm ("cpu") with
                | some v => cpuValDiag src v
                | none => [])
           | _ => []) ++
          (match ylookup rm ("requests") with
           | some (.map qm) =>
               (match ylookup qm ("cpu") with
                | some v => cpuValDiag src v
                | none => [])
           | _ => [])
      | _ => []
  | none => []

/-- All raw-map diagnostics of part_001, in print order (lines 103-221). -/
def lenientRawDiags (src : String) (doc : YVal) : List String :=
  metaNameRawDiags src doc ++ osRawDiags src doc ++ firstPortRawDiags src doc ++
  probeRawDiags src doc ("readinessProbe") ++ probeRawDiags src doc ("livenessProbe") ++
  cpuRawDiags src doc

/-- Container-name checks of part_001 (lines 253-264): an empty name prints
nothing ("already checked above"), a nonempty name gets the same format and
duplicate checks as yamlvalid.go. -/
def nameDiagsLenient (src : String) (seen : List String) (i : Nat) (c : Container) : List String :=
  if c.name = "" then [] else nameFmtDupDiags src seen i c

/-- Limits loop of part_001 (lines 281-288): only the memory format is
checked (the cpu block was removed from the typed pass). -/
def limitsDiagsLenient (src : String) (i : Nat) : List (String × String) → List String
  | [] => []
  | (k, v) :: rest =>
      (if k = ("memory") ∧ isValidMemoryFormat v = false then
        [ctrPath src i ++ (".resources.limits.memory has invalid format \x27") ++ v ++ ("\x27")]
       else []) ++
      limitsDiagsLenient src i rest

/-- Ports loop of part_001 (lines 291-298): only the protocol is checked in
the typed pass. -/
def protocolOnlyDiags (src : String) (i j : Nat) : List ContainerPort → List String
  | [] => []
  | p :: rest =>
      (if p.protocol ≠ "" ∧ p.protocol ≠ ("TCP") ∧ p.protocol ≠ ("UDP") then
        [portPath src i j ++ (".protocol has unsupported value \x27") ++ p.protocol ++ ("\x27")]
       else []) ++
      protocolOnlyDiags src i (j + 1) rest

/-- One container of the part_001 typed pass (its livenessProbe branch is an
empty if and prints nothing). -/
def oneContainerDiagsLenient (src : String) (seen : List String) (i : Nat) (c : Container) : List String :=
  nameDiagsLenient src seen i c ++ imageDiags src i c ++
  (match c.resources.requests with
   | none => []
   | some es => requestsDiags src i es) ++
  (match c.resources.limits with
   | none => []
   | some es => limitsDiagsLenient src i es) ++
  protocolOnlyDiags src i 0 c.ports

/-- Container loop of the part_001 typed pass (lines 249-306). -/
def containersDiagsLenient (src : String) (seen : List String) (i : Nat) : List Container → List String
  | [] => []
  | c :: rest =>
      oneContainerDiagsLenient src seen i c ++
      containersDiagsLenient src (updateSeen seen c) (i + 1) rest

/-- Typed-pass diagnostics of part_001 (lines 228-306), run only when the
typed parse succeeded. -/
def lenientTypedDiags (src : String) (pod : Pod) : List String :=
  apiVersionDiags src pod.apiVersion ++
  kindDiags src pod.kind ++
  containersRequiredDiags src pod.spec.containers ++
  containersDiagsLenient src [] 0 pod.spec.containers

/-- `validatePod` of src/unnamed/part_001, after the file read: the raw-map
checks always run; the typed pass is skipped when the typed parse reported
any error (line 224: `if parseErr != nil return nil`); the function never
aborts, so the run always exits zero. -/
def validatePodLenient (src : String) (doc : YVal) : List String :=
  let r := decodePod doc
  lenientRawDiags src doc ++ (if r.2 then [] else lenientTypedDiags src r.1)

/-! Helper lemmas: distinguishing diagnostic lines that share the source
identifier as a common prefix but differ inside their literal parts. -/

/-- Two list appends differ when the left parts differ at a position inside
both. -/
theorem listAppend_ne {α : Type} (p q xs ys : List α) (i : Nat)
    (h1 : i < p.length) (h2 : i < q.length) (h3 : p[i]? ≠ q[i]?) :
    p ++ xs ≠ q ++ ys := by
  intro h
  apply h3
  have e1 : (p ++ xs)[i]? = p[i]? := by rw [List.getElem?_append, if_pos h1]
  have e2 : (q ++ ys)[i]? = q[i]? := by rw [List.getElem?_append, if_pos h2]
  rw [← e1, ← e2, h]

/-- Two strings differ when their character lists decompose as appends whose
left parts differ at a shared position. -/
theorem str_ne_of (a b : String) (p q xs ys : List Char)
    (ha : a.data = p ++ xs) (hb : b.data = q ++ ys) (i : Nat)
    (h1 : i < p.length) (h2 : i < q.length) (h3 : p[i]? ≠ q[i]?) : a ≠ b := by
  intro h
  exact listAppend_ne p q xs ys i h1 h2 h3 (ha ▸ hb ▸ congrArg String.data h)

/-- Append of a common prefix string is left-cancellative. -/
theorem str_cancel_left {s a b : String} (h : s ++ a = s ++ b) : a = b := by
  have hd : s.data ++ a.data = s.data ++ b.data := by
    rw [← String.data_append, ← String.data_append, h]
  have h2 := List.append_cancel_left hd
  cases a
  cases b
  exact congrArg String.mk h2

/-! Spec-side formalisation of the §4.2 rule catalog, used to state the
round-trip property: a document satisfying every rule produces zero
diagnostics. Written from the table in §4.2 of the spec. -/

/-- All §4.2 rules that concern a single container. -/
def ContainerOK (c : Container) : Prop :=
  c.name ≠ "" ∧ isSnakeCase c.name = true ∧
  c.image ≠ "" ∧ isValidImage c.image = true ∧
  (∀ es, c.resources.requests = some es →
    ∀ kv ∈ es, (kv.1 = ("memory") → isValidMemoryFormat kv.2 = true) ∧
               (kv.1 = ("cpu") → atoiOk kv.2 = true)) ∧
  (∀ es, c.resources.limits = some es →
    ∀ kv ∈ es, (kv.1 = ("memory") → isValidMemoryFormat kv.2 = true) ∧
               (kv.1 = ("cpu") → atoiOk kv.2 = true)) ∧
  (∀ p ∈ c.ports, (1 ≤ p.containerPort ∧ p.containerPort ≤ 65535) ∧
    (p.protocol = "" ∨ p.protocol = ("TCP") ∨ p.protocol = ("UDP"))) ∧
  (∀ pr, c.readinessProbe = some pr →
    pr.httpGet.path ≠ "" ∧ 1 ≤ pr.httpGet.port ∧ pr.httpGet.port ≤ 65535) ∧
  (∀ pr, c.livenessProbe = some pr →
    pr.httpGet.path ≠ "" ∧ 1 ≤ pr.httpGet.port ∧ pr.httpGet.port ≤ 65535)

/-- The whole §4.2 catalog for a typed pod together with the raw view of the
same document (the bare-string `spec.os` rule lives on the raw view). -/
def Catalog (pod : Pod) (doc : YVal) : Prop :=
  pod.apiVersion = ("v1") ∧ pod.kind = ("Pod") ∧
  pod.metadata.name ≠ "" ∧
  pod.spec.containers ≠ [] ∧
  (pod.spec.containers.map (fun c => c.name)).Nodup ∧
  (∀ c ∈ pod.spec.containers, ContainerOK c) ∧
  (∀ s, specOsBareString doc = some s → s = ("linux") ∨ s = ("windows"))

/-! Emptiness lemmas: a value satisfying a rule produces no diagnostic from
the corresponding check. -/

theorem osRawDiags_nil (src : String) (doc : YVal)
    (h : ∀ s, specOsBareString doc = some s → s = ("linux") ∨ s = ("windows")) :
    osRawDiags src doc = [] := by
  cases hs : specOsBareString doc with
  | none => simp [osRawDiags, hs]
  | some s =>
      simp only [osRawDiags, hs]
      rw [if_neg]
      rintro ⟨h1, h2⟩
      rcases h s hs with h3 | h3
      · exact h1 h3
      · exact h2 h3

theorem requestsDiags_nil (src : String) (i : Nat) (es : List (String × String))
    (h : ∀ kv ∈ es, kv.1 = ("memory") → isValidMemoryFormat kv.2 = true) :
    requestsDiags src i es = [] := by
  induction es with
  | nil => rfl
  | cons kv rest ih =>
      obtain ⟨k, v⟩ := kv
      rw [requestsDiags, if_neg, List.nil_append]
      · exact ih fun kv hkv => h kv (List.mem_cons_of_mem _ hkv)
      · rintro ⟨h1, h2⟩
        rw [h (k, v) (List.mem_cons_self _ _) h1] at h2
        exact Bool.noConfusion h2

theorem limitsDiags_nil (src : String) (i : Nat) (es : List (String × String))
    (h : ∀ kv ∈ es, (kv.1 = ("memory") → isValidMemoryFormat kv.2 = true) ∧
                    (kv.1 = ("cpu") → atoiOk kv.2 = true)) :
    limitsDiags src i es = [] := by
  induction es with
  | nil => rfl
  | cons kv rest ih =>
      obtain ⟨k, v⟩ := kv
      rw [limitsDiags, if_neg, if_neg, List.nil_append, List.nil_append]
      · exact ih fun kv hkv => h kv (List.mem_cons_of_mem _ hkv)
      · rintro ⟨h1, h2⟩
        rw [(h (k, v) (List.mem_cons_self _ _)).2 h1] at h2
        exact Bool.noConfusion h2
      · rintro ⟨h1, h2⟩
        rw [(h (k, v) (List.mem_cons_self _ _)).1 h1] at h2
        exact Bool.noConfusion h2

theorem onePortDiags_nil (src : String) (i j : Nat) (p : ContainerPort)
    (h1 : 1 ≤ p.containerPort ∧ p.containerPort ≤ 65535)
    (h2 : p.protocol = "" ∨ p.protocol = ("TCP") ∨ p.protocol = ("UDP")) :
    onePortDiags src i j p = [] := by
  unfold onePortDiags
  rw [if_neg, if_neg, List.nil_append]
  · rintro ⟨g1, g2, g3⟩
    rcases h2 with h | h | h
    · exact g1 h
    · exact g2 h
    · exact g3 h
  · omega

theorem portsDiags_nil (src : String) (i : Nat) (ps : List ContainerPort)
    (h : ∀ p ∈ ps, (1 ≤ p.containerPort ∧ p.containerPort ≤ 65535) ∧
      (p.protocol = "" ∨ p.protocol = ("TCP") ∨ p.protocol = ("UDP"))) :
    ∀ j, portsDiags src i j ps = [] := by
  induction ps with
  | nil => intro j; rfl
  | cons p rest ih =>
      intro j
      rw [portsDiags,
        onePortDiags_nil src i j p (h p (List.mem_cons_self _ _)).1 (h p (List.mem_cons_self _ _)).2,
        List.nil_append]
      exact ih (fun q hq => h q (List.mem_cons_of_mem _ hq)) (j + 1)

theorem probeDiags_nil (base : String) (pr : Probe)
    (hp : pr.httpGet.path ≠ "") (h1 : 1 ≤ pr.httpGet.port) (h2 : pr.httpGet.port ≤ 65535) :
    probeDiags base pr = [] := by
  unfold probeDiags
  rw [if_neg hp, if_neg, List.nil_append]
  omega

theorem containerRest_nil (src : String) (i : Nat) (c : Container)
    (h : ContainerOK c) : containerRest src i c = [] := by
  obtain ⟨-, -, him, himv, hrq, hlm, hps, hrp, hlp⟩ := h
  unfold containerRest imageDiags resourcesDiags readinessDiags livenessDiags
  rw [if_neg him, if_pos himv]
  have e1 : (match c.resources.requests with
             | none => []
             | some es => requestsDiags src i es) = ([] : List String) := by
    cases hr : c.resources.requests with
    | none => rfl
    | some es => exact requestsDiags_nil src i es fun kv hkv => ((hrq es hr) kv hkv).1
  have e2 : (match c.resources.limits with
             | none => []
             | some es => limitsDiags src i es) = ([] : List String) := by
    cases hr : c.resources.limits with
    | none => rfl
    | some es => exact limitsDiags_nil src i es (hlm es hr)
  have e3 : (match c.readinessProbe with
             | none => []
             | some pr => probeDiags (ctrPath src i ++ (".readinessProbe")) pr) = ([] : List String) := by
    cases hr : c.readinessProbe with
    | none => rfl
    | some pr =>
        exact probeDiags_nil _ pr (hrp pr hr).1 (hrp pr hr).2.1 (hrp pr hr).2.2
  have e4 : (match c.livenessProbe with
             | none => []
             | some pr => probeDiags (ctrPath src i ++ (".livenessProbe")) pr) = ([] : List String) := by
    cases hr : c.livenessProbe with
    | none => rfl
    | some pr =>
        exact probeDiags_nil _ pr (hlp pr hr).1 (hlp pr hr).2.1 (hlp pr hr).2.2
  rw [e1, e2, e3, e4, portsDiags_nil src i c.ports hps 0]
  rfl

theorem containersDiags_nil (src : String) (cs : List Container) :
    ∀ (seen : List String) (i : Nat),
    (∀ c ∈ cs, ContainerOK c) →
    (cs.map (fun c => c.name)).Nodup →
    (∀ c ∈ cs, c.name ∉ seen) →
    containersDiags src seen i cs = [] := by
  induction cs with
  | nil => intro seen i _ _ _; rfl
  | cons c rest ih =>
      intro seen i hok hnd hseen
      have hc := hok c (List.mem_cons_self _ _)
      have hname : c.name ≠ "" := hc.1
      have hsnake : isSnakeCase c.name = true := hc.2.1
      rw [containersDiags]
      have hone : oneContainerDiags src seen i c = [] := by
        unfold oneContainerDiags nameDiags nameFmtDupDiags
        rw [if_neg hname, if_pos hsnake, if_neg (hseen c (List.mem_cons_self _ _)),
          containerRest_nil src i c hc]
        rfl
      rw [hone, List.nil_append]
      rw [List.map_cons, List.nodup_cons] at hnd
      apply ih (updateSeen seen c) (i + 1) (fun d hd => hok d (List.mem_cons_of_mem _ hd)) hnd.2
      intro d hd
      unfold updateSeen
      rw [if_neg hname]
      intro hmem
      rcases List.mem_cons.mp hmem with h | h
      · exact hnd.1 (h ▸ List.mem_map_of_mem (fun c => c.name) hd)
      · exact hseen d (List.mem_cons_of_mem _ hd) h

/-! Membership lemmas: a violation anywhere in the containers array
contributes its line to the output, regardless of position. -/

theorem portsDiags_mem (src : String) (i : Nat) (ps : List ContainerPort) :
    ∀ (j k : Nat) (p : ContainerPort), ps[k]? = some p →
    p.containerPort ≤ 0 ∨ 65536 ≤ p.containerPort →
    (portPath src i (j + k) ++ (".containerPort value out of range")) ∈ portsDiags src i j ps := by
  induction ps with
  | nil => intro j k p hk; simp at hk
  | cons q rest ih =>
      intro j k p hk hcond
      cases k with
      | zero =>
          rw [List.getElem?_cons_zero, Option.some.injEq] at hk
          subst hk
          rw [portsDiags]
          apply List.mem_append_left
          unfold onePortDiags
          apply List.mem_append_left
          rw [if_pos hcond]
          simp
      | succ m =>
          rw [List.getElem?_cons_succ] at hk
          rw [portsDiags]
          apply List.mem_append_right
          have e : j + (m + 1) = (j + 1) + m := by omega
          rw [e]
          exact ih (j + 1) m p hk hcond

theorem containersDiags_mem_rest (src : String) (cs : List Container) :
    ∀ (seen : List String) (i k : Nat) (c : Container) (x : String),
    cs[k]? = some c → x ∈ containerRest src (i + k) c →
    x ∈ containersDiags src seen i cs := by
  induction cs with
  | nil => intro seen i k c x hk; simp at hk
  | cons a rest ih =>
      intro seen i k c x hk hx
      cases k with
      | zero =>
          rw [List.getElem?_cons_zero, Option.some.injEq] at hk
          subst hk
          rw [containersDiags]
          apply List.mem_append_left
          unfold oneContainerDiags
          apply List.mem_append_right
          simpa using hx
      | succ m =>
          rw [List.getElem?_cons_succ] at hk
          rw [containersDiags]
          apply List.mem_append_right
          have e : i + (m + 1) = (i + 1) + m := by omega
          rw [e] at hx
          exact ih (updateSeen seen a) (i + 1) m c x hk hx

theorem containersDiags_fmt_mem (src : String) (cs : List Container) :
    ∀ (seen : List String) (i k : Nat) (c : Container),
    cs[k]? = some c → c.name ≠ "" → isSnakeCase c.name = false →
    (ctrPath src (i + k) ++ (".name has invalid format \x27") ++ c.name ++ ("\x27"))
      ∈ containersDiags src seen i cs := by
  induction cs with
  | nil => intro seen i k c hk; simp at hk
  | cons a rest ih =>
      intro seen i k c hk hne hfmt
      cases k with
      | zero =>
          rw [List.getElem?_cons_zero, Option.some.injEq] at hk
          subst hk
          rw [containersDiags]
          apply List.mem_append_left
          unfold oneContainerDiags nameDiags nameFmtDupDiags
          apply List.mem_append_left
          rw [if_neg hne]
          apply List.mem_append_left
          rw [hfmt]
          simp
      | succ m =>
          rw [List.getElem?_cons_succ] at hk
          rw [containersDiags]
          apply List.mem_append_right
          have e : i + (m + 1) = (i + 1) + m := by omega
          rw [e]
          exact ih (updateSeen seen a) (i + 1) m c hk hne hfmt

theorem containersDiags_dup_mem (src : String) (cs : List Container) :
    ∀ (seen : List String) (i k : Nat) (c : Container),
    cs[k]? = some c → c.name ≠ "" →
    (c.name ∈ seen ∨ ∃ m, m < k ∧ ∃ d, cs[m]? = some d ∧ d.name = c.name) →
    (ctrPath src (i + k) ++ (".name duplicate container name \x27") ++ c.name ++ ("\x27"))
      ∈ containersDiags src seen i cs := by
  induction cs with
  | nil => intro seen i k c hk; simp at hk
  | cons a rest ih =>
      intro seen i k c hk hne hdup
      cases k with
      | zero =>
          rw [List.getElem?_cons_zero, Option.some.injEq] at hk
          subst hk
          have hmem := hdup.resolve_right (by rintro ⟨m, hm, -⟩; omega)
          rw [containersDiags]
          apply List.mem_append_left
          unfold oneContainerDiags nameDiags nameFmtDupDiags
          apply List.mem_append_left
          rw [if_neg hne]
          apply List.mem_append_right
          rw [if_pos hmem]
          simp
      | succ m =>
          rw [List.getElem?_cons_succ] at hk
          rw [containersDiags]
          apply List.mem_append_right
          have e : i + (m + 1) = (i + 1) + m := by omega
          rw [e]
          apply ih (updateSeen seen a) (i + 1) m c hk hne
          rcases hdup with h | ⟨n, hn, d, hd, hdn⟩
          · left
            unfold updateSeen
            split
            · exact h
            · exact List.mem_cons_of_mem _ h
          · cases n with
            | zero =>
                rw [List.getElem?_cons_zero, Option.some.injEq] at hd
                subst hd
                left
                unfold updateSeen
                rw [if_neg (hdn ▸ hne)]
                rw [← hdn]
                exact List.mem_cons_self _ _
            | succ n2 =>
                rw [List.getElem?_cons_succ] at hd
                right
                exact ⟨n2, by omega, d, hd, hdn⟩

/-! Additional line-distinguishing helpers. -/

/-- A line `s ++ a` differs from `((s ++ b) ++ y) ++ z` when the literals
`a` and `b` differ at a shared position. -/
theorem str_tail_ne (a b : String) (i : Nat)
    (h1 : i < a.data.length) (h2 : i < b.data.length) (h3 : a.data[i]? ≠ b.data[i]?) :
    ∀ s y z : String, s ++ a ≠ ((s ++ b) ++ y) ++ z := by
  intro s y z h
  have hd := congrArg String.data h
  simp only [String.data_append, List.append_assoc] at hd
  have h4 := List.append_cancel_left hd
  exact listAppend_ne a.data b.data [] (y.data ++ z.data) i h1 h2 h3
    (by rw [List.append_nil]; exact h4) 

/-- Two literal-tailed lines over the same prefix differ when the literals
differ. -/
theorem str_tail_ne0 (a b : String) (h : a ≠ b) : ∀ s : String, s ++ a ≠ s ++ b :=
  fun _ hh => h (str_cancel_left hh)

/-- The hardcoded cpu line never coincides with a requests-memory line. -/
theorem cpu_line_ne_req_mem_line (src : String) (i : Nat) (v : String) :
    (src ++ (":30 cpu must be int")) ≠
      (ctrPath src i ++ (".resources.requests.memory has invalid format \x27") ++ v ++ ("\x27")) := by
  intro h
  have hd := congrArg String.data h
  simp only [ctrPath, String.data_append, List.append_assoc] at hd
  have h2 := List.append_cancel_left hd
  exact listAppend_ne ((":30 cpu must be int").data) ((": spec.containers[").data) [] _ 1
    (by decide) (by decide) (by decide) (by rw [List.append_nil]; exact h2)

/-- The cpu diagnostic is never produced by the requests loop of
src/yamlvalid.go, whatever the entries are. -/
theorem requestsDiags_no_cpu_line (src : String) (i : Nat) (es : List (String × String)) :
    (src ++ (":30 cpu must be int")) ∉ requestsDiags src i es := by
  induction es with
  | nil => simp [requestsDiags]
  | cons kv rest ih =>
      obtain ⟨k, v⟩ := kv
      rw [requestsDiags]
      intro hmem
      rcases List.mem_append.mp hmem with h | h
      · by_cases hc : k = ("memory") ∧ isValidMemoryFormat v = false
        · rw [if_pos hc, List.mem_singleton] at h
          exact cpu_line_ne_req_mem_line src i v h
        · rw [if_neg hc] at h
          simp at h
      · exact ih h

/-- The cpu line is emitted by the limits loop for every failing cpu entry. -/
theorem limitsDiags_cpu_mem (src : String) (i : Nat) (es : List (String × String))
    (v : String) (hv : (("cpu"), v) ∈ es) (ha : atoiOk v = false) :
    (src ++ (":30 cpu must be int")) ∈ limitsDiags src i es := by
  induction es with
  | nil => simp at hv
  | cons kv rest ih =>
      rw [limitsDiags]
      rcases List.mem_cons.mp hv with h | h
      · subst h
        apply List.mem_append_left
        apply List.mem_append_right
        rw [if_pos ⟨rfl, ha⟩]
        simp
      · apply List.mem_append_right
        exact ih h

/-! Concrete scenario documents. -/

/-- The §8 round-trip scenario document of the spec. -/
def goodDoc : YVal :=
  .map [(("apiVersion"), .str ("v1")), (("kind"), .str ("Pod")),
        (("metadata"), .map [(("name"), .str ("web"))]),
        (("spec"), .map [(("containers"), .seq [
          .map [(("name"), .str ("web_server")),
                (("image"), .str ("registry.bigbrother.io/app:1.0"))]])])]

/-- The container of the round-trip document, as the typed pass binds it. -/
def goodCtr : Container :=
  { name := ("web_server"), image := ("registry.bigbrother.io/app:1.0"),
    ports := [], readinessProbe := none, livenessProbe := none,
    resources := { requests := none, limits := none } }

/-- The typed structure the round-trip document binds to. -/
def goodPod : Pod :=
  { apiVersion := ("v1"), kind := ("Pod"),
    metadata := { name := ("web"), nspace := "", labels := none },
    spec := { os := none, containers := [goodCtr] } }

/-- C1: a manifest document satisfying every rule of the §4.2 catalog
produces zero diagnostic lines and the run terminates with exit status
zero. -/
theorem validatePod_catalog_roundtrip (src : String) (doc : YVal) (pod : Pod)
    (hdec : decodePod doc = (pod, false)) (hcat : Catalog pod doc) :
    validatePod src doc = Except.ok [] ∧ runExit (validatePod src doc) = 0 := by
  obtain ⟨hav, hkd, hmn, hcs, hnd, hok, hos⟩ := hcat
  have hapi : apiVersionDiags src ("v1") = [] := by
    unfold apiVersionDiags
    rw [if_neg (by decide : ¬(("v1" : String) = "")),
      if_neg (by decide : ¬(("v1" : String) ≠ "" ∧ ("v1" : String) ≠ ("v1")))]
    rfl
  have hkind : kindDiags src ("Pod") = [] := by
    unfold kindDiags
    rw [if_neg (by decide : ¬(("Pod" : String) = "")),
      if_neg (by decide : ¬(("Pod" : String) ≠ "" ∧ ("Pod" : String) ≠ ("Pod")))]
    rfl
  have hdiags : validatePodDiags src pod doc = [] := by
    unfold validatePodDiags
    rw [osRawDiags_nil src doc hos, hav, hkd, hapi, hkind]
    unfold metaNameDiags containersRequiredDiags
    rw [if_neg hmn, if_neg (fun h => hcs (List.length_eq_zero.mp h)),
      containersDiags_nil src pod.spec.containers [] 0 hok hnd
        (fun c _ => List.not_mem_nil c.name)]
    rfl
  have hval : validatePod src doc = Except.ok [] := by
    unfold validatePod
    rw [hdec]
    simpa using hdiags
  exact ⟨hval, by rw [hval]; rfl⟩

/-- C1 witness: the concrete §8 scenario document. -/
theorem validatePod_catalog_roundtrip_witness :
    validatePod ("pod.yaml") goodDoc = Except.ok [] ∧
    runExit (validatePod ("pod.yaml") goodDoc) = 0 := by
  apply validatePod_catalog_roundtrip ("pod.yaml") goodDoc goodPod (by decide)
  refine ⟨rfl, rfl, by decide, by decide, by decide, ?_, ?_⟩
  · intro c hc
    have he : c = goodCtr := by
      simpa [goodPod] using hc
    subst he
    refine ⟨by decide, by decide, by decide, by decide, ?_, ?_, ?_, ?_, ?_⟩
    · intro es h
      exact Option.noConfusion h
    · intro es h
      exact Option.noConfusion h
    · intro p hp
      simp [goodCtr] at hp
    · intro pr h
      exact Option.noConfusion h
    · intro pr h
      exact Option.noConfusion h
  · intro s h
    rw [show specOsBareString goodDoc = none from by decide] at h
    exact Option.noConfusion h

/-- An otherwise-valid document carrying the ambiguous bare-string
`spec.os: "macos"`. -/
def macosDoc : YVal :=
  .map [(("apiVersion"), .str ("v1")), (("kind"), .str ("Pod")),
        (("metadata"), .map [(("name"), .str ("web"))]),
        (("spec"), .map [(("os"), .str ("macos")), (("containers"), .seq [
          .map [(("name"), .str ("web_server")),
                (("image"), .str ("registry.bigbrother.io/app:1.0"))]])])]

/-- The same document with `spec.os: "linux"`. -/
def linuxDoc : YVal :=
  .map [(("apiVersion"), .str ("v1")), (("kind"), .str ("Pod")),
        (("metadata"), .map [(("name"), .str ("web"))]),
        (("spec"), .map [(("os"), .str ("linux")), (("containers"), .seq [
          .map [(("name"), .str ("web_server")),
                (("image"), .str ("registry.bigbrother.io/app:1.0"))]])])]

/-- C2 counterexample: in src/yamlvalid.go a typed-parse failure caused only
by the bare-string shape of `spec.os` DOES abort the validation: the run
returns the fatal parse error, prints zero diagnostics and exits 1, instead
of continuing with one `os` diagnostic. -/
theorem validatePod_os_shape_aborts :
    validatePod ("pod.yaml") macosDoc = Except.error ("invalid YAML format") ∧
    runExit (validatePod ("pod.yaml") macosDoc) = 1 := by
  constructor
  · rfl
  · rfl

/-- C2 amended: in src/yamlvalid.go a shape-only typed-parse failure aborts
with the fatal parse error (exit 1, zero diagnostics) for both the "macos"
and the "linux" document; only the part_001 variant continues: its untyped
pass emits exactly one diagnostic (the `:10`-tagged os line) for "macos"
and zero diagnostics for "linux". -/
theorem lenient_os_scenarios :
    validatePodLenient ("pod.yaml") macosDoc =
      [("pod.yaml:10 os has unsupported value \x27macos\x27")] ∧
    validatePodLenient ("pod.yaml") linuxDoc = [] ∧
    validatePod ("pod.yaml") linuxDoc = Except.error ("invalid YAML format") := by
  refine ⟨rfl, rfl, rfl⟩

/-- An otherwise-valid document whose metadata.name is empty. -/
def emptyNameDoc : YVal :=
  .map [(("apiVersion"), .str ("v1")), (("kind"), .str ("Pod")),
        (("metadata"), .map [(("name"), .str (""))]),
        (("spec"), .map [(("containers"), .seq [
          .map [(("name"), .str ("web_server")),
                (("image"), .str ("registry.bigbrother.io/app:1.0"))]])])]

/-- C4 counterexample: an empty metadata.name produces the line
`<src>:4 name is required` with a hardcoded `:4` tag after the source
identifier, which is not the §6 format `<src>: name is required`. -/
theorem metaName_line_counterexample :
    validatePod ("f.yaml") emptyNameDoc = Except.ok [("f.yaml:4 name is required")] ∧
    ("f.yaml:4 name is required") ≠ ("f.yaml: name is required") := by
  exact ⟨rfl, by decide⟩

/-- C4 amended: a missing or empty metadata.name produces the diagnostic
line `<src>:4 name is required` — the source identifier followed by the
hardcoded tag `:4`, not the §6 format without it. -/
theorem metaName_line_hardcoded_tag (src : String) (pod : Pod) (doc : YVal)
    (h : pod.metadata.name = "") :
    (src ++ (":4 name is required")) ∈ validatePodDiags src pod doc := by
  have hm : metaNameDiags src pod.metadata.name = [src ++ (":4 name is required")] := by
    rw [metaNameDiags, if_pos h]
  unfold validatePodDiags
  rw [hm]
  simp

/-- C4 amended witness. -/
theorem metaName_line_hardcoded_tag_witness :
    ("f.yaml" ++ (":4 name is required")) ∈
      validatePodDiags ("f.yaml") (decodePod emptyNameDoc).1 emptyNameDoc :=
  metaName_line_hardcoded_tag ("f.yaml") (decodePod emptyNameDoc).1 emptyNameDoc (by decide)

/-- An otherwise-valid document whose only resource entry is
`requests: {cpu: "abc"}`. -/
def reqCpuDoc : YVal :=
  .map [(("apiVersion"), .str ("v1")), (("kind"), .str ("Pod")),
        (("metadata"), .map [(("name"), .str ("web"))]),
        (("spec"), .map [(("containers"), .seq [
          .map [(("name"), .str ("web_server")),
                (("image"), .str ("registry.bigbrother.io/app:1.0")),
                (("resources"), .map [(("requests"), .map [(("cpu"), .str ("abc"))])])]])])]

/-- C7 counterexample: a `resources.requests` cpu entry that does not parse
as an integer produces NO diagnostic in src/yamlvalid.go — the whole run
prints zero lines — although `atoiOk "abc"` is false. -/
theorem requests_cpu_unchecked :
    validatePod ("f.yaml") reqCpuDoc = Except.ok [] ∧ atoiOk ("abc") = false := by
  exact ⟨rfl, by decide⟩

/-- C7 amended: the cpu rule of src/yamlvalid.go applies to the limits
mapping only: every limits entry with key cpu whose value does not parse as
an integer yields the (hardcoded-tag) cpu line, a parseable numeric string
such as "4" yields none, and no requests entry ever yields the cpu line;
a numeric literal `4` binds to the string "4" and passes. -/
theorem cpu_checked_only_in_limits :
    (∀ (src : String) (i : Nat) (es : List (String × String)) (v : String),
      (("cpu"), v) ∈ es → atoiOk v = false →
      (src ++ (":30 cpu must be int")) ∈ limitsDiags src i es) ∧
    (∀ (src : String) (i : Nat) (es : List (String × String)),
      (src ++ (":30 cpu must be int")) ∉ requestsDiags src i es) ∧
    (∀ (src : String) (i : Nat) (es : List (String × String)),
      (∀ kv ∈ es, (kv.1 = ("memory") → isValidMemoryFormat kv.2 = true) ∧
                  (kv.1 = ("cpu") → atoiOk kv.2 = true)) →
      limitsDiags src i es = []) ∧
    atoiOk ("4") = true ∧ decodeStr (YVal.int 4) = (("4"), false) := by
  refine ⟨?_, ?_, ?_, by decide, by decide⟩
  · intro src i es v hv ha
    exact limitsDiags_cpu_mem src i es v hv ha
  · intro src i es
    exact requestsDiags_no_cpu_line src i es
  · intro src i es h
    exact limitsDiags_nil src i es h

/-- C7 amended witness. -/
theorem cpu_checked_only_in_limits_witness :
    (("f") ++ (":30 cpu must be int")) ∈ limitsDiags ("f") 0 [(("cpu"), ("abc"))] ∧
    (("f") ++ (":30 cpu must be int")) ∉ requestsDiags ("f") 0 [(("cpu"), ("abc"))] ∧
    limitsDiags ("f") 0 [(("cpu"), ("4"))] = [] :=
  ⟨cpu_checked_only_in_limits.1 ("f") 0 [(("cpu"), ("abc"))] ("abc") (by decide) (by decide),
   cpu_checked_only_in_limits.2.1 ("f") 0 [(("cpu"), ("abc"))],
   cpu_checked_only_in_limits.2.2.1 ("f") 0 [(("cpu"), ("4"))]
     (by intro kv hkv; rw [List.mem_singleton] at hkv; subst hkv; exact ⟨by decide, by decide⟩)⟩

/-! Remaining claim theorems. -/

/-- C5: when apiVersion is empty exactly the required diagnostic is
produced, the required and unsupported-value diagnostics are mutually
exclusive for every input, and the same holds for kind. -/
theorem apiVersion_kind_required_exclusive :
    (∀ src v : String, v = "" → apiVersionDiags src v = [src ++ (": apiVersion is required")]) ∧
    (∀ src v : String, ¬((src ++ (": apiVersion is required")) ∈ apiVersionDiags src v ∧
        (src ++ (": apiVersion has unsupported value \x27") ++ v ++ ("\x27")) ∈ apiVersionDiags src v)) ∧
    (∀ src v : String, v = "" → kindDiags src v = [src ++ (": kind is required")]) ∧
    (∀ src v : String, ¬((src ++ (": kind is required")) ∈ kindDiags src v ∧
        (src ++ (": kind has unsupported value \x27") ++ v ++ ("\x27")) ∈ kindDiags src v)) := by
  refine ⟨?_, ?_, ?_, ?_⟩
  · intro src v h
    subst h
    unfold apiVersionDiags
    rw [if_pos rfl, if_neg (by rintro ⟨h1, -⟩; exact h1 rfl)]
    rfl
  · intro src v
    rintro ⟨h1, h2⟩
    unfold apiVersionDiags at h1 h2
    by_cases hv : v = ""
    · subst hv
      rw [if_pos rfl, if_neg (by rintro ⟨h, -⟩; exact h rfl), List.append_nil,
        List.mem_singleton] at h2
      exact str_tail_ne (": apiVersion is required") (": apiVersion has unsupported value \x27")
        13 (by decide) (by decide) (by decide) src ("") ("\x27") h2.symm
    · rw [if_neg hv, List.nil_append] at h1
      by_cases hv1 : v ≠ "" ∧ v ≠ ("v1")
      · rw [if_pos hv1, List.mem_singleton] at h1
        exact str_tail_ne (": apiVersion is required") (": apiVersion has unsupported value \x27")
          13 (by decide) (by decide) (by decide) src v ("\x27") h1
      · rw [if_neg hv1] at h1
        exact absurd h1 (List.not_mem_nil _)
  · intro src v h
    subst h
    unfold kindDiags
    rw [if_pos rfl, if_neg (by rintro ⟨h1, -⟩; exact h1 rfl)]
    rfl
  · intro src v
    rintro ⟨h1, h2⟩
    unfold kindDiags at h1 h2
    by_cases hv : v = ""
    · subst hv
      rw [if_pos rfl, if_neg (by rintro ⟨h, -⟩; exact h rfl), List.append_nil,
        List.mem_singleton] at h2
      exact str_tail_ne (": kind is required") (": kind has unsupported value \x27")
        7 (by decide) (by decide) (by decide) src ("") ("\x27") h2.symm
    · rw [if_neg hv, List.nil_append] at h1
      by_cases hv1 : v ≠ "" ∧ v ≠ ("Pod")
      · rw [if_pos hv1, List.mem_singleton] at h1
        exact str_tail_ne (": kind is required") (": kind has unsupported value \x27")
          7 (by decide) (by decide) (by decide) src v ("\x27") h1
      · rw [if_neg hv1] at h1
        exact absurd h1 (List.not_mem_nil _)

/-- C5 witness. -/
theorem apiVersion_kind_required_exclusive_witness :
    apiVersionDiags ("f.yaml") ("") = [("f.yaml") ++ (": apiVersion is required")] ∧
    kindDiags ("f.yaml") ("") = [("f.yaml") ++ (": kind is required")] :=
  ⟨apiVersion_kind_required_exclusive.1 ("f.yaml") ("") rfl,
   apiVersion_kind_required_exclusive.2.2.1 ("f.yaml") ("") rfl⟩

/-- C6: every repeated occurrence (after the first) of a nonempty container
name produces the duplicate diagnostic at that index, and independently the
invalid-format diagnostic also fires there when the name is not
snake_case. -/
theorem duplicate_name_every_repeat (src : String) (pod : Pod) (doc : YVal)
    (i j : Nat) (ci cj : Container) (hij : i < j)
    (hi : pod.spec.containers[i]? = some ci) (hj : pod.spec.containers[j]? = some cj)
    (hname : ci.name = cj.name) (hne : cj.name ≠ "") :
    (ctrPath src j ++ (".name duplicate container name \x27") ++ cj.name ++ ("\x27"))
      ∈ validatePodDiags src pod doc ∧
    (isSnakeCase cj.name = false →
      (ctrPath src j ++ (".name has invalid format \x27") ++ cj.name ++ ("\x27"))
        ∈ validatePodDiags src pod doc) := by
  constructor
  · have h := containersDiags_dup_mem src pod.spec.containers [] 0 j cj hj hne
      (Or.inr ⟨i, hij, ci, hi, hname⟩)
    rw [Nat.zero_add] at h
    unfold validatePodDiags
    exact List.mem_append_right _ h
  · intro hfmt
    have h := containersDiags_fmt_mem src pod.spec.containers [] 0 j cj hj hne hfmt
    rw [Nat.zero_add] at h
    unfold validatePodDiags
    exact List.mem_append_right _ h

/-- A container with a non-snake-case name, used twice in a row. -/
def dupCtr : Container :=
  { name := ("Bad"), image := ("registry.bigbrother.io/app:1.0"),
    ports := [], readinessProbe := none, livenessProbe := none,
    resources := { requests := none, limits := none } }

/-- A pod repeating `dupCtr`. -/
def dupPod : Pod :=
  { apiVersion := ("v1"), kind := ("Pod"),
    metadata := { name := ("web"), nspace := "", labels := none },
    spec := { os := none, containers := [dupCtr, dupCtr] } }

/-- C6 witness: the repeated name gets both the duplicate and the
invalid-format diagnostic in the same run. -/
theorem duplicate_name_every_repeat_witness :
    (ctrPath ("f") 1 ++ (".name duplicate container name \x27") ++ ("Bad") ++ ("\x27"))
      ∈ validatePodDiags ("f") dupPod (YVal.null) ∧
    (ctrPath ("f") 1 ++ (".name has invalid format \x27") ++ ("Bad") ++ ("\x27"))
      ∈ validatePodDiags ("f") dupPod (YVal.null) := by
  have h := duplicate_name_every_repeat ("f") dupPod (YVal.null) 0 1 dupCtr dupCtr
    (by decide) (by decide) (by decide) rfl (by decide)
  exact ⟨h.1, h.2 (by decide)⟩

/-- C3: the containerPort range rule and both probe port range rules are
evaluated for every container (any index i) and every port (any index j),
and a violation anywhere contributes its line to the output. -/
theorem range_rules_every_container_port (src : String) (pod : Pod) (doc : YVal) :
    (∀ (i j : Nat) (c : Container) (p : ContainerPort),
      pod.spec.containers[i]? = some c → c.ports[j]? = some p →
      p.containerPort ≤ 0 ∨ 65536 ≤ p.containerPort →
      (portPath src i j ++ (".containerPort value out of range"))
        ∈ validatePodDiags src pod doc) ∧
    (∀ (i : Nat) (c : Container) (pr : Probe),
      pod.spec.containers[i]? = some c → c.readinessProbe = some pr →
      pr.httpGet.port ≤ 0 ∨ 65536 ≤ pr.httpGet.port →
      ((ctrPath src i ++ (".readinessProbe")) ++ (".httpGet.port value out of range"))
        ∈ validatePodDiags src pod doc) ∧
    (∀ (i : Nat) (c : Container) (pr : Probe),
      pod.spec.containers[i]? = some c → c.livenessProbe = some pr →
      pr.httpGet.port ≤ 0 ∨ 65536 ≤ pr.httpGet.port →
      ((ctrPath src i ++ (".livenessProbe")) ++ (".httpGet.port value out of range"))
        ∈ validatePodDiags src pod doc) := by
  refine ⟨?_, ?_, ?_⟩
  · intro i j c p hc hp hcond
    have hport := portsDiags_mem src i c.ports 0 j p hp hcond
    rw [Nat.zero_add] at hport
    have hrest : (portPath src i j ++ (".containerPort value out of range"))
        ∈ containerRest src i c := by
      unfold containerRest
      exact List.mem_append_left _ (List.mem_append_left _ (List.mem_append_right _ hport))
    have h := containersDiags_mem_rest src pod.spec.containers [] 0 i c _ hc
      (by rw [Nat.zero_add]; exact hrest)
    unfold validatePodDiags
    exact List.mem_append_right _ h
  · intro i c pr hc hpr hcond
    have hr : readinessDiags src i c = probeDiags (ctrPath src i ++ (".readinessProbe")) pr := by
      unfold readinessDiags
      rw [hpr]
    have hprobe : ((ctrPath src i ++ (".readinessProbe")) ++ (".httpGet.port value out of range"))
        ∈ probeDiags (ctrPath src i ++ (".readinessProbe")) pr := by
      unfold probeDiags
      apply List.mem_append_right
      rw [if_pos hcond]
      simp
    have hrest : ((ctrPath src i ++ (".readinessProbe")) ++ (".httpGet.port value out of range"))
        ∈ containerRest src i c := by
      unfold containerRest
      exact List.mem_append_left _ (List.mem_append_right _ (hr ▸ hprobe))
    have h := containersDiags_mem_rest src pod.spec.containers [] 0 i c _ hc
      (by rw [Nat.zero_add]; exact hrest)
    unfold validatePodDiags
    exact List.mem_append_right _ h
  · intro i c pr hc hpr hcond
    have hr : livenessDiags src i c = probeDiags (ctrPath src i ++ (".livenessProbe")) pr := by
      unfold livenessDiags
      rw [hpr]
    have hprobe : ((ctrPath src i ++ (".livenessProbe")) ++ (".httpGet.port value out of range"))
        ∈ probeDiags (ctrPath src i ++ (".livenessProbe")) pr := by
      unfold probeDiags
      apply List.mem_append_right
      rw [if_pos hcond]
      simp
    have hrest : ((ctrPath src i ++ (".livenessProbe")) ++ (".httpGet.port value out of range"))
        ∈ containerRest src i c := by
      unfold containerRest
      exact List.mem_append_right _ (hr ▸ hprobe)
    have h := containersDiags_mem_rest src pod.spec.containers [] 0 i c _ hc
      (by rw [Nat.zero_add]; exact hrest)
    unfold validatePodDiags
    exact List.mem_append_right _ h

/-- An out-of-range port in second position. -/
def oorPort : ContainerPort := { containerPort := 65536, protocol := ("TCP") }

/-- An in-range port. -/
def okPort : ContainerPort := { containerPort := 80, protocol := ("TCP") }

/-- A probe with an out-of-range port. -/
def oorProbe : Probe := { httpGet := { path := ("/healthz"), port := 0 } }

/-- First container of the C3 witness pod (fully valid). -/
def c3firstCtr : Container :=
  { name := ("web_server"), image := ("registry.bigbrother.io/app:1.0"),
    ports := [okPort], readinessProbe := none, livenessProbe := none,
    resources := { requests := none, limits := none } }

/-- Second container of the C3 witness pod: violations in its second port
and in both probes. -/
def c3secondCtr : Container :=
  { name := ("worker"), image := ("registry.bigbrother.io/app:1.0"),
    ports := [okPort, oorPort], readinessProbe := some oorProbe,
    livenessProbe := some oorProbe,
    resources := { requests := none, limits := none } }

/-- The C3 witness pod. -/
def c3pod : Pod :=
  { apiVersion := ("v1"), kind := ("Pod"),
    metadata := { name := ("web"), nspace := "", labels := none },
    spec := { os := none, containers := [c3firstCtr, c3secondCtr] } }

/-- C3 witness: violations in the second container and its second port are
reported. -/
theorem range_rules_every_container_port_witness :
    (portPath ("f") 1 1 ++ (".containerPort value out of range"))
      ∈ validatePodDiags ("f") c3pod (YVal.null) ∧
    ((ctrPath ("f") 1 ++ (".readinessProbe")) ++ (".httpGet.port value out of range"))
      ∈ validatePodDiags ("f") c3pod (YVal.null) ∧
    ((ctrPath ("f") 1 ++ (".livenessProbe")) ++ (".httpGet.port value out of range"))
      ∈ validatePodDiags ("f") c3pod (YVal.null) := by
  have h := range_rules_every_container_port ("f") c3pod (YVal.null)
  exact ⟨h.1 1 1 c3secondCtr oorPort (by decide) (by decide) (by decide),
         h.2.1 1 c3secondCtr oorProbe (by decide) (by decide) (by decide),
         h.2.2 1 c3secondCtr oorProbe (by decide) (by decide) (by decide)⟩

/-- C8: the out-of-range diagnostic for containerPort and for probe ports
fires exactly when the value is outside 1..65535; 0 and 65536 are
violations, 1 and 65535 are not. -/
theorem containerPort_range_boundary :
    (∀ n : Int, (n ≤ 0 ∨ 65536 ≤ n) ↔ ¬(1 ≤ n ∧ n ≤ 65535)) ∧
    (∀ (src : String) (i j : Nat) (p : ContainerPort),
      (portPath src i j ++ (".containerPort value out of range")) ∈ onePortDiags src i j p ↔
        (p.containerPort ≤ 0 ∨ 65536 ≤ p.containerPort)) ∧
    (∀ (base : String) (pr : Probe),
      (base ++ (".httpGet.port value out of range")) ∈ probeDiags base pr ↔
        (pr.httpGet.port ≤ 0 ∨ 65536 ≤ pr.httpGet.port)) ∧
    (onePortDiags ("f") 0 0 { containerPort := 0, protocol := "" } ≠ [] ∧
     onePortDiags ("f") 0 0 { containerPort := 65536, protocol := "" } ≠ [] ∧
     onePortDiags ("f") 0 0 { containerPort := 1, protocol := "" } = [] ∧
     onePortDiags ("f") 0 0 { containerPort := 65535, protocol := "" } = []) := by
  refine ⟨?_, ?_, ?_, by decide, by decide, by decide, by decide⟩
  · intro n
    constructor <;> (intro h; omega)
  · intro src i j p
    constructor
    · intro h
      unfold onePortDiags at h
      rcases List.mem_append.mp h with h1 | h1
      · by_cases hc : p.containerPort ≤ 0 ∨ 65536 ≤ p.containerPort
        · exact hc
        · rw [if_neg hc] at h1
          exact absurd h1 (List.not_mem_nil _)
      · by_cases hc : p.protocol ≠ "" ∧ p.protocol ≠ ("TCP") ∧ p.protocol ≠ ("UDP")
        · rw [if_pos hc, List.mem_singleton] at h1
          exact absurd h1 (str_tail_ne (".containerPort value out of range")
            (".protocol has unsupported value \x27") 1 (by decide) (by decide) (by decide)
            (portPath src i j) p.protocol ("\x27"))
        · rw [if_neg hc] at h1
          exact absurd h1 (List.not_mem_nil _)
    · intro hc
      unfold onePortDiags
      apply List.mem_append_left
      rw [if_pos hc]
      simp
  · intro base pr
    constructor
    · intro h
      unfold probeDiags at h
      rcases List.mem_append.mp h with h1 | h1
      · by_cases hc : pr.httpGet.path = ""
        · rw [if_pos hc, List.mem_singleton] at h1
          exact absurd h1 (str_tail_ne0 (".httpGet.port value out of range")
            (".httpGet.path is required") (by decide) base)
        · rw [if_neg hc] at h1
          exact absurd h1 (List.not_mem_nil _)
      · by_cases hc : pr.httpGet.port ≤ 0 ∨ 65536 ≤ pr.httpGet.port
        · exact hc
        · rw [if_neg hc] at h1
          exact absurd h1 (List.not_mem_nil _)
    · intro hc
      unfold probeDiags
      apply List.mem_append_right
      rw [if_pos hc]
      simp

/-- Spec-side (§4.2): the anchored regex `[0-9]+(Ki|Mi|Gi)` as a predicate:
the character list splits into a nonempty digit block followed by one of
the three unit suffixes. -/
def MemPattern (s : String) : Prop :=
  ∃ ds u : List Char,
    s.data = ds ++ u ∧ ds ≠ [] ∧ (∀ c ∈ ds, isDigitChar c = true) ∧
    (u = ['K', 'i'] ∨ u = ['M', 'i'] ∨ u = ['G', 'i'])

/-- The source checker decides exactly the regex `[0-9]+(Ki|Mi|Gi)`. -/
theorem isValidMemoryFormat_iff (s : String) :
    isValidMemoryFormat s = true ↔ MemPattern s := by
  unfold isValidMemoryFormat MemPattern
  simp only [Bool.and_eq_true, Bool.or_eq_true, decide_eq_true_eq, List.all_eq_true, or_assoc]
  constructor
  · rintro ⟨⟨h3, hdig⟩, hsuf⟩
    refine ⟨s.data.take (s.data.length - 2), s.data.drop (s.data.length - 2),
      (List.take_append_drop _ _).symm, ?_, ?_, ?_⟩
    · refine List.length_pos.mp ?_
      rw [List.length_take]
      omega
    · intro c hc
      exact hdig c hc
    · exact hsuf
  · rintro ⟨ds, u, hdata, hne, hdig, hu⟩
    have hlu : u.length = 2 := by
      rcases hu with h | h | h <;> subst h <;> rfl
    have hlen : s.data.length = ds.length + 2 := by
      rw [hdata, List.length_append, hlu]
    have hd2 : s.data.length - 2 = ds.length := by omega
    have htake : s.data.take (s.data.length - 2) = ds := by
      rw [hd2, hdata, List.take_left]
    have hdrop : s.data.drop (s.data.length - 2) = u := by
      rw [hd2, hdata, List.drop_left]
    have hpos : 0 < ds.length := List.length_pos.mpr hne
    refine ⟨⟨by omega, ?_⟩, ?_⟩
    · intro c hc
      rw [htake] at hc
      exact hdig c hc
    · rw [hdrop]
      exact hu

/-- The memory line is emitted by the requests loop for every failing
memory entry. -/
theorem requestsDiags_mem_memory (src : String) (i : Nat) (es : List (String × String))
    (v : String) (hv : (("memory"), v) ∈ es) (hb : isValidMemoryFormat v = false) :
    (ctrPath src i ++ (".resources.requests.memory has invalid format \x27") ++ v ++ ("\x27"))
      ∈ requestsDiags src i es := by
  induction es with
  | nil => simp at hv
  | cons kv rest ih =>
      rw [requestsDiags]
      rcases List.mem_cons.mp hv with h | h
      · subst h
        apply List.mem_append_left
        rw [if_pos ⟨rfl, hb⟩]
        simp
      · exact List.mem_append_right _ (ih h)

/-- The memory line is emitted by the limits loop for every failing memory
entry. -/
theorem limitsDiags_mem_memory (src : String) (i : Nat) (es : List (String × String))
    (v : String) (hv : (("memory"), v) ∈ es) (hb : isValidMemoryFormat v = false) :
    (ctrPath src i ++ (".resources.limits.memory has invalid format \x27") ++ v ++ ("\x27"))
      ∈ limitsDiags src i es := by
  induction es with
  | nil => simp at hv
  | cons kv rest ih =>
      rw [limitsDiags]
      rcases List.mem_cons.mp hv with h | h
      · subst h
        apply List.mem_append_left
        apply List.mem_append_left
        rw [if_pos ⟨rfl, hb⟩]
        simp
      · exact List.mem_append_right _ (ih h)

/-- C9: a requests/limits memory value passes exactly when it matches the
anchored regex `[0-9]+(Ki|Mi|Gi)`: the three §8 valid examples pass, the
three invalid ones fail, a failing entry in either mapping produces the
corresponding invalid-format diagnostic, and all-valid entries produce
none. -/
theorem memory_format_rule :
    (∀ s : String, isValidMemoryFormat s = true ↔ MemPattern s) ∧
    (isValidMemoryFormat ("512Ki") = true ∧ isValidMemoryFormat ("1Gi") = true ∧
     isValidMemoryFormat ("500Mi") = true ∧ isValidMemoryFormat ("512") = false ∧
     isValidMemoryFormat ("1GB") = false ∧ isValidMemoryFormat ("Ki") = false) ∧
    (∀ (src : String) (i : Nat) (es : List (String × String)) (v : String),
      (("memory"), v) ∈ es → isValidMemoryFormat v = false →
      (ctrPath src i ++ (".resources.requests.memory has invalid format \x27") ++ v ++ ("\x27"))
        ∈ requestsDiags src i es) ∧
    (∀ (src : String) (i : Nat) (es : List (String × String)) (v : String),
      (("memory"), v) ∈ es → isValidMemoryFormat v = false →
      (ctrPath src i ++ (".resources.limits.memory has invalid format \x27") ++ v ++ ("\x27"))
        ∈ limitsDiags src i es) ∧
    (∀ (src : String) (i : Nat) (es : List (String × String)),
      (∀ kv ∈ es, kv.1 = ("memory") → isValidMemoryFormat kv.2 = true) →
      requestsDiags src i es = []) := by
  refine ⟨isValidMemoryFormat_iff, by decide, ?_, ?_, ?_⟩
  · intro src i es v hv hb
    exact requestsDiags_mem_memory src i es v hv hb
  · intro src i es v hv hb
    exact limitsDiags_mem_memory src i es v hv hb
  · intro src i es h
    exact requestsDiags_nil src i es h

/-- C9 witness. -/
theorem memory_format_rule_witness :
    (ctrPath ("f") 0 ++ (".resources.requests.memory has invalid format \x27") ++ ("1GB") ++ ("\x27"))
      ∈ requestsDiags ("f") 0 [(("memory"), ("1GB"))] ∧
    (ctrPath ("f") 0 ++ (".resources.limits.memory has invalid format \x27") ++ ("512") ++ ("\x27"))
      ∈ limitsDiags ("f") 0 [(("memory"), ("512"))] ∧
    requestsDiags ("f") 0 [(("memory"), ("512Ki"))] = [] :=
  ⟨memory_format_rule.2.2.1 ("f") 0 [(("memory"), ("1GB"))] ("1GB") (by decide) (by decide),
   memory_format_rule.2.2.2.1 ("f") 0 [(("memory"), ("512"))] ("512") (by decide) (by decide),
   memory_format_rule.2.2.2.2 ("f") 0 [(("memory"), ("512Ki"))]
     (by intro kv hkv; rw [List.mem_singleton] at hkv; subst hkv; intro h2; decide)⟩

/-- The container loop with every name empty: each container contributes
exactly the `:12`-tagged required line plus its name-independent checks; no
format or duplicate segment is reachable. Used to state C10. -/
def emptyNamesLoop (src : String) (i : Nat) : List Container → List String
  | [] => []
  | c :: rest =>
      (src ++ (":12 name is required")) :: (containerRest src i c ++ emptyNamesLoop src (i + 1) rest)

/-- C10: an empty container name produces only the required diagnostic, is
not recorded in the seen-name set, and a containers list whose names are
all empty runs as `emptyNamesLoop` — which contains no duplicate or format
diagnostic for any index. -/
theorem empty_container_names_only_required :
    (∀ (src : String) (seen : List String) (i : Nat) (c : Container), c.name = "" →
      nameDiags src seen i c = [src ++ (":12 name is required")] ∧ updateSeen seen c = seen) ∧
    (∀ (src : String) (seen : List String) (i : Nat) (cs : List Container),
      (∀ c ∈ cs, c.name = "") →
      containersDiags src seen i cs = emptyNamesLoop src i cs) := by
  constructor
  · intro src seen i c h
    constructor
    · rw [nameDiags, if_pos h]
    · rw [updateSeen, if_pos h]
  · intro src seen i cs h
    revert h
    induction cs generalizing seen i with
    | nil =>
        intro h
        rfl
    | cons c rest ih =>
        intro h
        have hc := h c (List.mem_cons_self _ _)
        have hrest := fun d hd => h d (List.mem_cons_of_mem _ hd)
        rw [containersDiags, emptyNamesLoop]
        have h1 : oneContainerDiags src seen i c =
            (src ++ (":12 name is required")) :: containerRest src i c := by
          unfold oneContainerDiags nameDiags
          rw [if_pos hc]
          rfl
        have h2 : updateSeen seen c = seen := by
          rw [updateSeen, if_pos hc]
        rw [h1, h2, ih seen (i + 1) hrest]
        simp

/-- C10 witness: two containers with empty names. -/
theorem empty_container_names_only_required_witness :
    nameDiags ("f") [] 0 zeroContainer = [("f") ++ (":12 name is required")] ∧
    containersDiags ("f") [] 0 [zeroContainer, zeroContainer] =
      emptyNamesLoop ("f") 0 [zeroContainer, zeroContainer] :=
  ⟨(empty_container_names_only_required.1 ("f") [] 0 zeroContainer rfl).1,
   empty_container_names_only_required.2 ("f") [] 0 [zeroContainer, zeroContainer] (by decide)⟩

end YamlValid
